import Mathlib

/-!
Verification of the stapled/ocspd pipeline-and-scheduler core.

The definitions below are shallow embeddings of the Python source:

 * `src/ocspd/scheduling/__init__.py` — `SchedulerThread` (tables
   `scheduled_by_context`, `schedule`, `scheduled_by_queue`,
   `scheduled_by_subject`, the stage queues, and the operations
   `add_task`, `cancel_task`, `cancel_by_subject`).
 * `src/ocspd/core/taskcontext.py` — `OCSPTaskContext.set_last_exception`.
 * `src/ocspd/core/excepthandler.py` — the retry-cadence branches of
   `ocsp_except_handle`.
 * `src/stapled/core/certmodel.py` — `recycle_staple` and the OCSP fetch
   call in `renew_ocsp_staple`; `src/ocspd/core/certmodel.py` —
   the `ocsp_request` builder.
 * `src/stapled/core/stapleadder.py` — `add_staple`, `send`, `_send`.

Python dicts are embedded as association lists (insertion-ordered, keys
unique in the states we consider), Python lists as Lean lists, datetimes
as integers, and raised exceptions as `Except.error`.
-/

namespace Stapled

/-! ### Association-list helpers (Python dict / list primitives) -/

/-- First value stored under `key`, like Python `d[key]` / `key in d`. -/
def lookupA {κ ν : Type} [DecidableEq κ] : List (κ × ν) → κ → Option ν
  | [], _ => none
  | (k, v) :: rest, key => if k = key then some v else lookupA rest key

/-- Remove the first pair stored under `key`, like Python `d.pop(key)`
(the lookup result is taken separately with `lookupA`). -/
def popA {κ ν : Type} [DecidableEq κ] : List (κ × ν) → κ → List (κ × ν)
  | [], _ => []
  | (k, v) :: rest, key => if k = key then rest else (k, v) :: popA rest key

/-- Apply `f` to the value stored under `key` (first match), like mutating
`d[key]` in place. Missing keys are left alone; the states considered in
the theorems always contain the key. -/
def updateA {κ ν : Type} [DecidableEq κ] : List (κ × ν) → κ → (ν → ν) → List (κ × ν)
  | [], _, _ => []
  | (k, v) :: rest, key, f =>
    if k = key then (k, f v) :: rest else (k, v) :: updateA rest key f

/-- Python `d[key] = v`: replace in place if present, else insert at the
end (dicts preserve insertion order). -/
def setA {κ ν : Type} [DecidableEq κ] (l : List (κ × ν)) (key : κ) (v : ν) :
    List (κ × ν) :=
  if (lookupA l key).isSome then updateA l key (fun _ => v) else l ++ [(key, v)]

/-- Python `list.remove(x)`: drop the first occurrence of `x`. (Python
raises ValueError when `x` is absent; in every state considered here the
element is present, so the total no-op reading is equivalent.) -/
def removeFirst {α : Type} [DecidableEq α] : List α → α → List α
  | [], _ => []
  | x :: rest, y => if x = y then rest else x :: removeFirst rest y

/-- `defaultdict(list)` access followed by `.append(x)`: extend the list
under `key` if present, else materialise `[x]` under a fresh key at the
end. -/
def appendAt {κ : Type} [DecidableEq κ] (l : List (κ × List Nat)) (key : κ) (x : Nat) :
    List (κ × List Nat) :=
  match lookupA l key with
  | some _ => updateA l key (fun v => v ++ [x])
  | none => l ++ [(key, [x])]

/-- Number of pairs stored under `key`. -/
def countKey {κ ν : Type} [DecidableEq κ] : List (κ × ν) → κ → Nat
  | [], _ => 0
  | (k, _) :: rest, key => (if k = key then 1 else 0) + countKey rest key

/-- Number of occurrences of `x` in a plain list. -/
def countIn : List Nat → Nat → Nat
  | [], _ => 0
  | y :: rest, x => (if y = x then 1 else 0) + countIn rest x

/-- Total occurrences of `x` across every list value of the table. -/
def countTbl {κ : Type} : List (κ × List Nat) → Nat → Nat
  | [], _ => 0
  | (_, v) :: rest, x => countIn v x + countTbl rest x

/-! ### Scheduler state (`SchedulerThread`, src/ocspd/scheduling/__init__.py) -/

/-- The immutable attributes of a `ScheduledTaskContext` object. Python
compares contexts by object identity; `id` stands for that identity. The
mutable `sched_time` attribute is passed to `add_task` separately, the
way the Python object carries its current value into the call. -/
structure SchedCtx where
  id : Nat
  task_name : String
  subject : Nat
deriving DecidableEq, Repr

/-- The four scheduler tables plus the stage queues:
`scheduled_by_context` (dict ctx ↦ sched time), `schedule`
(defaultdict time ↦ ctx list), `scheduled_by_queue` (dict queue name ↦
ctx list), `scheduled_by_subject` (defaultdict subject ↦ ctx list), and
`_queues` (dict queue name ↦ FIFO contents). -/
structure SchedState where
  scheduled_by_context : List (Nat × Int)
  schedule : List (Int × List Nat)
  scheduled_by_queue : List (String × List Nat)
  scheduled_by_subject : List (Nat × List Nat)
  queues : List (String × List Nat)
deriving DecidableEq, Repr

/-- `SchedulerThread.cancel_task` (lines 216-239): pop the context from
`scheduled_by_context`; if that raises KeyError return `False`, else
remove the context from its `schedule` slot, from
`scheduled_by_queue[task_name]` and from `scheduled_by_subject[subject]`
and return `True`. -/
def cancel_task (ctx : SchedCtx) (st : SchedState) : SchedState × Bool :=
  match lookupA st.scheduled_by_context ctx.id with
  | none => (st, false)
  | some sched_time =>
    ({ st with
        scheduled_by_context := popA st.scheduled_by_context ctx.id
        schedule := updateA st.schedule sched_time (fun s => removeFirst s ctx.id)
        scheduled_by_queue :=
          updateA st.scheduled_by_queue ctx.task_name (fun s => removeFirst s ctx.id)
        scheduled_by_subject :=
          updateA st.scheduled_by_subject ctx.subject (fun s => removeFirst s ctx.id) },
      true)

/-- `SchedulerThread.add_task` (lines 171-214). A falsy `sched_time`
(`None`, or relative `0` before conversion) sends the context straight to
its stage queue and returns without touching the deadline tables. A
truthy `sched_time` (modelled absolute, the code converts relative
integers first) first cancels the context if it is already scheduled,
then inserts it into all four tables. An unknown `task_name` raises
KeyError. -/
def add_task (ctx : SchedCtx) (sched_time : Option Int) (st : SchedState) :
    Except String SchedState :=
  if (lookupA st.queues ctx.task_name).isNone then
    .error "KeyError"
  else
    match sched_time with
    | none =>
      .ok { st with queues := updateA st.queues ctx.task_name (fun q => q ++ [ctx.id]) }
    | some t =>
      let st1 := if (lookupA st.scheduled_by_context ctx.id).isSome then
          (cancel_task ctx st).1 else st
      .ok { st1 with
        scheduled_by_context := setA st1.scheduled_by_context ctx.id t
        scheduled_by_queue :=
          updateA st1.scheduled_by_queue ctx.task_name (fun q => q ++ [ctx.id])
        schedule := appendAt st1.schedule t ctx.id
        scheduled_by_subject := appendAt st1.scheduled_by_subject ctx.subject ctx.id }

/-- One step of the `for ctx in ctxs` loop of `cancel_by_subject`
(lines 316-328). Python's list iterator keeps an index into the single
list object `self.scheduled_by_subject[subject]`, the very list that
`cancel_task` mutates, so the current list is re-read from the state on
every step. `find` resolves a context id to its object (the Python list
holds the objects themselves). `fuel` bounds the recursion; the list
never grows during the loop, so the initial length is enough. -/
def cancelBySubjectLoop (find : Nat → SchedCtx) (subject : Nat)
    (st : SchedState) (i fuel : Nat) : SchedState :=
  match fuel with
  | 0 => st
  | fuel + 1 =>
    let ctxs := (lookupA st.scheduled_by_subject subject).getD []
    if i < ctxs.length then
      cancelBySubjectLoop find subject (cancel_task (find (ctxs.getD i 0)) st).1
        (i + 1) fuel
    else st

/-- `SchedulerThread.cancel_by_subject` (lines 316-328): iterate over the
live list `self.scheduled_by_subject[subject]`, calling `cancel_task` on
each yielded context. -/
def cancel_by_subject (find : Nat → SchedCtx) (subject : Nat) (st : SchedState) :
    SchedState :=
  cancelBySubjectLoop find subject st 0
    ((lookupA st.scheduled_by_subject subject).getD []).length

/-! ### Task-context exception counter
(`OCSPTaskContext.set_last_exception`, src/ocspd/core/taskcontext.py 45-62) -/

/-- The exception-tracking fields of an `OCSPTaskContext`
(`last_exception`, `last_exception_count`). The handler always passes
`str(exc)`, so the stored exception is a string. -/
structure ExcCtx where
  last_exception : Option String
  last_exception_count : Nat
deriving DecidableEq, Repr

/-- CPython truthiness of the `last_exception` attribute: `None` and the
empty string are falsy. -/
def pyFalsyStr (o : Option String) : Bool :=
  match o with
  | none => true
  | some s => s = ""

/-- The test `repr(self.last_exception) is repr(exc)` from
`set_last_exception`. The two `repr` calls each build a fresh,
non-interned string object (the arguments at the call sites are
multi-character exception messages), so CPython identity comparison is
false regardless of the contents. -/
def pyReprIs (_stored : String) (_incoming : String) : Bool := false

/-- `OCSPTaskContext.set_last_exception` (lines 45-62): if there is no
previous exception, or the identity test on the two reprs succeeds,
store the exception and set the counter to 1; otherwise leave the stored
exception alone and increment the counter. Returns the updated context
and the counter value the caller receives. -/
def set_last_exception (c : ExcCtx) (exc : String) : ExcCtx × Nat :=
  if pyFalsyStr c.last_exception ∨ pyReprIs (c.last_exception.getD "") exc then
    ({ last_exception := some exc, last_exception_count := 1 }, 1)
  else
    ({ c with last_exception_count := c.last_exception_count + 1 },
      c.last_exception_count + 1)

/-! ### Central error handler cadences
(`ocsp_except_handle`, src/ocspd/core/excepthandler.py) -/

/-- What a handler branch does with the task context after logging. -/
inductive HandlerAction where
  | reschedule (seconds : Nat)
  | giveUp
deriving DecidableEq, Repr

/-- The `CertFileAccessError` / `OCSPAdderBadResponse` branch
(lines 74-85): `reschedule(60 * err_count)` while `err_count < 4`,
`reschedule(3600)` while `err_count < 7`, then no reschedule
("giving up.."). -/
def certFileAccessPolicy (err_count : Nat) : HandlerAction :=
  if err_count < 4 then .reschedule (60 * err_count)
  else if err_count < 7 then .reschedule 3600
  else .giveUp

/-- The `OCSPBadResponse` branch (lines 105-117): the same first two
tiers, but the final tier is `reschedule(43200)` (twice a day) instead of
giving up. -/
def ocspBadResponsePolicy (err_count : Nat) : HandlerAction :=
  if err_count < 4 then .reschedule (60 * err_count)
  else if err_count < 7 then .reschedule 3600
  else .reschedule 43200

/-- The url-index rotation performed by the network-error branch
(lines 157-161): `url_index += 1; if url_index >= len(ocsp_urls):
url_index = 0`. -/
def advance_url_index (len_ocsp_urls : Nat) (url_index : Nat) : Nat :=
  let idx := url_index + 1
  if len_ocsp_urls ≤ idx then 0 else idx

/-- The whole network-error branch (lines 157-179): rotate the url index
first, then pick the reschedule delay from the error count: 10 s while
`err_count < 3*urls + 1`, 3600 s while `err_count < 6*urls + 1`, then
`43200 // urls` seconds. Returns the new url index and the action. -/
def networkErrorBranch (len_ocsp_urls url_index err_count : Nat) :
    Nat × HandlerAction :=
  (advance_url_index len_ocsp_urls url_index,
    if err_count < 3 * len_ocsp_urls + 1 then .reschedule 10
    else if err_count < 6 * len_ocsp_urls + 1 then .reschedule 3600
    else .reschedule (43200 / len_ocsp_urls))

/-! ### Staple recycling
(`CertModel.recycle_staple`, src/stapled/core/certmodel.py 77-145; the
src/ocspd/core/certmodel.py 85-146 version has the same shape minus the
empty-file check) -/

/-- Parse result of the on-disk staple (`OCSPResponseParser`): its
status string and `valid_until` timestamp. -/
structure ParsedStaple where
  status : String
  valid_until : Int
deriving DecidableEq, Repr

/-- The environment `recycle_staple` runs in: does `<cert>.ocsp` exist,
what does reading it yield (`none` = IOError/OSError raised by
open/read), does the raw data parse as an OCSP response (`none` =
`asn1crypto.ocsp.OCSPResponse.load` / `OCSPResponseParser` raises), and
does `_validate_cert` accept it (`false` = `CertValidationError`). -/
structure RecycleEnv where
  ocsp_file_exists : Bool
  read_result : Option String
  parse_result : Option ParsedStaple
  validate_ok : Bool
deriving Repr

/-- `CertModel.recycle_staple` (stapled lines 77-145), with raised
exceptions surfaced as `.error`. Only the open/read step is inside a
`try  except (IOError, OSError)` block and only `_validate_cert` is
guarded against `CertValidationError`; the parse step between them is
unguarded, so a parse exception escapes the method. -/
def recycle_staple (env : RecycleEnv) (now minimum_validity : Int) :
    Except String Bool :=
  if ¬ env.ocsp_file_exists then .ok false
  else
    match env.read_result with
    | none => .ok false
    | some raw_staple =>
      if raw_staple = "" then .ok false
      else
        match env.parse_result with
        | none => .error "asn1crypto parse exception"
        | some staple =>
          if staple.status ≠ "good" ∨ staple.valid_until ≤ now then .ok false
          else if ¬ env.validate_ok then .ok false
          else if staple.valid_until - minimum_validity < now then .ok false
          else .ok true

/-! ### OCSP request construction -/

/-- The arguments of the `certvalidator.ocsp_client.fetch` call in
`CertModel.renew_ocsp_staple` (src/stapled/core/certmodel.py 190-196). -/
structure FetchCall where
  subject : Nat
  issuer : Nat
  hash_algo : String
  nonce : Bool
deriving DecidableEq, Repr

/-- Python `chain[-2]`: the second-to-last element. -/
def pyIndexNeg2 (chain : List Nat) : Nat := chain.getD (chain.length - 2) 0

/-- The stapled renewer's fetch call: subject `self.end_entity`, issuer
`self.chain[-2]`, `hash_algo=u'sha1'`, `nonce=True`. -/
def stapled_renew_fetch_call (end_entity : Nat) (chain : List Nat) : FetchCall :=
  { subject := end_entity
    issuer := pyIndexNeg2 chain
    hash_algo := "sha1"
    nonce := true }

/-- The `nonce` attribute of the `OCSPRequestBuilder` in the ocspd
`CertModel.ocsp_request` property (src/ocspd/core/certmodel.py 386-392):
`ocsp_request_builder.nonce = False`. -/
def ocspd_request_nonce : Bool := false

/-! ### StapleAdder (src/stapled/core/stapleadder.py) -/

/-- The characters of the strip argument `.strip(chr(10) + "> ")` used on
the collected socket response. -/
def stripChars : List Char := ['\n', '>', ' ']

/-- Python `str.strip(chars)`: remove the characters of the set from BOTH
ends of the string. -/
def pyStrip (s : String) : String :=
  ⟨((s.data.dropWhile (· ∈ stripChars)).reverse.dropWhile (· ∈ stripChars)).reverse⟩

/-- Stripping from the trailing end only (Python `str.rstrip(chars)`),
used to state claims that speak of trailing characters. -/
def pyRStrip (s : String) : String :=
  ⟨((s.data.reverse.dropWhile (· ∈ stripChars)).reverse)⟩

/-- The success marker HAProxy answers with. -/
def OCSP_RESPONSE_UPDATED : String := "OCSP Response updated!"

/-- `StapleAdder._send` (lines 195-232), write side: the bytes pushed by
`sock.sendall((command + chr(10)).encode())` for the `command` argument
it receives. -/
def sendall_bytes (command : String) : String := command ++ "\n"

/-- `StapleAdder.send` (lines 268-282) hands each socket the string
`command + chr(10)` (via `.format`), so the bytes `_send` writes per
socket are the command followed by two newlines. -/
def send_per_socket_write (command : String) : String :=
  sendall_bytes (command ++ "\n")

/-- `StapleAdder._send`, read side: the response value returned to
`send`, i.e. the collected buffer stripped with `.strip` over
`stripChars`. `raw` is the buffer contents at loop exit. -/
def send_response (raw : String) : String := pyStrip raw

/-- The response check of `StapleAdder.add_staple` (lines 186-193) for
one socket delivery: raise `StapleAdderBadResponse` unless the (already
stripped) response equals `OCSP Response updated!`. `raw` is the
unstripped buffer `_send` collected. -/
def add_staple_check (raw : String) : Except String Unit :=
  if send_response raw = OCSP_RESPONSE_UPDATED then .ok ()
  else .error ("Bad HAProxy response: " ++ send_response raw)

/-- The fields of the cert model that `add_staple` reads. -/
structure AddModel where
  staple_b64 : String
  cert_path : String
  filename : String
deriving Repr

/-- `OCSP_ADD.format(...)`: the command sent for a staple. -/
def OCSP_ADD (b64 : String) : String := "set ssl ocsp-response " ++ b64

/-- `StapleAdder.add_staple` (lines 172-193). Looks up the sockets for
`model.cert_path` in `haproxy_socket_mapping` (KeyError when absent),
returns silently when the list is empty, otherwise writes the command to
every socket and raises `StapleAdderBadResponse` at the first response
that is not `OCSP Response updated!`. `responses` maps a socket path to
the raw buffer its `_send` collects; `socks` is the adder's socket table,
returned so the theorems can speak about it (no broken-pipe reopen
happens in the modelled runs). Result: outcome, list of
(path, bytes written), socket table. -/
def add_staple (mapping : List (String × List String))
    (responses : String → String) (socks : List (String × Nat))
    (m : AddModel) :
    Except String Unit × List (String × String) × List (String × Nat) :=
  let command := OCSP_ADD m.staple_b64
  match lookupA mapping m.cert_path with
  | none => (.error "KeyError", [], socks)
  | some paths =>
    if paths.isEmpty then (.ok (), [], socks)
    else
      let writes := paths.map (fun p => (p, send_per_socket_write command))
      match paths.find? (fun p => send_response (responses p) ≠ OCSP_RESPONSE_UPDATED) with
      | some p =>
        (.error ("Bad HAProxy response: " ++ send_response (responses p)), writes, socks)
      | none => (.ok (), writes, socks)

/-! ### Lemmas about the table primitives -/

theorem countKey_popA {κ ν : Type} [DecidableEq κ] (l : List (κ × ν)) (key : κ) :
    countKey (popA l key) key = countKey l key - 1 := by
  induction l with
  | nil => simp [popA, countKey]
  | cons p rest ih =>
    obtain ⟨k, v⟩ := p
    by_cases h : k = key
    · simp [popA, countKey, h]
    · simp [popA, countKey, h, ih]

theorem lookupA_eq_none_of_countKey_zero {κ ν : Type} [DecidableEq κ]
    (l : List (κ × ν)) (key : κ) (h : countKey l key = 0) :
    lookupA l key = none := by
  induction l with
  | nil => simp [lookupA]
  | cons p rest ih =>
    obtain ⟨k, v⟩ := p
    by_cases hk : k = key
    · simp [countKey, hk] at h
    · simp [countKey, hk] at h
      simp [lookupA, hk, ih h]

theorem countKey_append {κ ν : Type} [DecidableEq κ] (l m : List (κ × ν)) (key : κ) :
    countKey (l ++ m) key = countKey l key + countKey m key := by
  induction l with
  | nil => simp [countKey]
  | cons p rest ih =>
    obtain ⟨k, v⟩ := p
    simp [countKey, ih]
    omega

theorem lookupA_append_of_none {κ ν : Type} [DecidableEq κ]
    (l m : List (κ × ν)) (key : κ) (h : lookupA l key = none) :
    lookupA (l ++ m) key = lookupA m key := by
  induction l with
  | nil => simp [lookupA]
  | cons p rest ih =>
    obtain ⟨k, v⟩ := p
    by_cases hk : k = key
    · simp [lookupA, hk] at h
    · simp [lookupA, hk] at h ⊢
      exact ih h

theorem countIn_removeFirst (l : List Nat) (x : Nat) :
    countIn (removeFirst l x) x = countIn l x - 1 := by
  induction l with
  | nil => simp [removeFirst, countIn]
  | cons y rest ih =>
    by_cases h : y = x
    · simp [removeFirst, countIn, h]
    · simp [removeFirst, countIn, h, ih]

theorem countIn_append (l m : List Nat) (x : Nat) :
    countIn (l ++ m) x = countIn l x + countIn m x := by
  induction l with
  | nil => simp [countIn]
  | cons y rest ih =>
    simp [countIn, ih]
    omega

theorem countIn_pos_of_mem {l : List Nat} {x : Nat} (h : x ∈ l) :
    0 < countIn l x := by
  induction l with
  | nil => cases h
  | cons y rest ih =>
    rcases List.mem_cons.mp h with h1 | h2
    · simp [countIn, h1]
    · have := ih h2
      simp [countIn]
      omega

theorem countTbl_append {κ : Type} (l m : List (κ × List Nat)) (x : Nat) :
    countTbl (l ++ m) x = countTbl l x + countTbl m x := by
  induction l with
  | nil => simp [countTbl]
  | cons p rest ih =>
    obtain ⟨k, v⟩ := p
    simp [countTbl, ih]
    omega

theorem countTbl_updateA {κ : Type} [DecidableEq κ]
    (l : List (κ × List Nat)) (key : κ) (f : List Nat → List Nat) (x : Nat)
    (v : List Nat) (hv : lookupA l key = some v) :
    countTbl (updateA l key f) x + countIn v x = countTbl l x + countIn (f v) x := by
  induction l with
  | nil => simp [lookupA] at hv
  | cons p rest ih =>
    obtain ⟨k, w⟩ := p
    by_cases hk : k = key
    · simp [lookupA, hk] at hv
      subst hv
      simp [updateA, countTbl, hk]
      omega
    · simp [lookupA, hk] at hv
      have h := ih hv
      simp [updateA, countTbl, hk]
      omega

theorem lookupA_updateA_self {κ ν : Type} [DecidableEq κ]
    (l : List (κ × ν)) (key : κ) (f : ν → ν) :
    lookupA (updateA l key f) key = (lookupA l key).map f := by
  induction l with
  | nil => simp [updateA, lookupA]
  | cons p rest ih =>
    obtain ⟨k, v⟩ := p
    by_cases hk : k = key
    · simp [updateA, lookupA, hk]
    · simp only [updateA, lookupA, if_neg hk]
      exact ih

theorem countIn_le_countTbl {κ : Type} [DecidableEq κ]
    (l : List (κ × List Nat)) (key : κ) (x : Nat) (v : List Nat)
    (hv : lookupA l key = some v) : countIn v x ≤ countTbl l x := by
  induction l with
  | nil => simp [lookupA] at hv
  | cons p rest ih =>
    obtain ⟨k, w⟩ := p
    by_cases hk : k = key
    · simp [lookupA, hk] at hv
      subst hv
      simp [countTbl]
    · simp [lookupA, hk] at hv
      have := ih hv
      simp [countTbl]
      omega

theorem countTbl_update_append {κ : Type} [DecidableEq κ]
    (l : List (κ × List Nat)) (key : κ) (x : Nat) (v : List Nat)
    (hv : lookupA l key = some v) :
    countTbl (updateA l key (fun q => q ++ [x])) x = countTbl l x + 1 := by
  have h := countTbl_updateA l key (fun q => q ++ [x]) x v hv
  simp only [] at h
  have hap := countIn_append v [x] x
  simp [countIn] at hap
  omega

theorem countTbl_appendAt {κ : Type} [DecidableEq κ]
    (l : List (κ × List Nat)) (key : κ) (x : Nat) :
    countTbl (appendAt l key x) x = countTbl l x + 1 := by
  cases hv : lookupA l key with
  | none => simp [appendAt, hv, countTbl_append, countTbl, countIn]
  | some v =>
    have h := countTbl_updateA l key (fun w => w ++ [x]) x v hv
    simp [countIn_append, countIn] at h
    simp [appendAt, hv]
    omega

/-! ### Concrete states used by the claim theorems -/

/-- Two distinct task contexts for the same subject 7, both of stage
`renew`. -/
def c1find : Nat → SchedCtx := fun i =>
  if i = 1 then { id := 1, task_name := "renew", subject := 7 }
  else { id := 2, task_name := "renew", subject := 7 }

/-- A scheduler state with both subject-7 contexts pending on the
deadline heap, at times 10 and 20. -/
def c1state : SchedState :=
  { scheduled_by_context := [(1, 10), (2, 20)]
    schedule := [(10, [1]), (20, [2])]
    scheduled_by_queue := [("renew", [1, 2])]
    scheduled_by_subject := [(7, [1, 2])]
    queues := [("renew", [])] }

/-- A context already scheduled at time 10. -/
def c6ctx : SchedCtx := { id := 1, task_name := "renew", subject := 7 }

/-- A scheduler state in which `c6ctx` is pending on the deadline heap
at time 10 and the `renew` stage queue is empty. -/
def c6state : SchedState :=
  { scheduled_by_context := [(1, 10)]
    schedule := [(10, [1])]
    scheduled_by_queue := [("renew", [1])]
    scheduled_by_subject := [(7, [1])]
    queues := [("renew", [])] }

/-- A recycle run over an existing, readable, non-empty `<cert>.ocsp`
file whose bytes do not parse as an OCSP response. -/
def c4env : RecycleEnv :=
  { ocsp_file_exists := true
    read_result := some "garbage"
    parse_result := none
    validate_ok := true }

/-- A collected proxy response with junk before the success marker. -/
def c8raw : String := "\n> OCSP Response updated!\n> "

/-- A socket mapping whose only entry maps the directory to no
sockets. -/
def c10mapping : List (String × List String) := [("/etc/certs", [])]

/-- A model whose `cert_path` is the key of `c10mapping`. -/
def c10model : AddModel :=
  { staple_b64 := "QUJD"
    cert_path := "/etc/certs"
    filename := "/etc/certs/a.pem" }

/-! ### Claim theorems -/

/-- Claim C1 (code bug): with two tasks for subject 7 pending on the
deadline heap, `cancel_by_subject` removes only the first. The `for`
loop iterates over the very list `cancel_task` shrinks, so the element
that slides into the consumed position is skipped: context 2 — whose
subject is 7 and which was on the heap — stays in all four tables,
contradicting "removes ... all of them". -/
theorem C1_cancel_by_subject_skips_second_task :
    cancel_by_subject c1find 7 c1state =
      { scheduled_by_context := [(2, 20)]
        schedule := [(10, []), (20, [2])]
        scheduled_by_queue := [("renew", [2])]
        scheduled_by_subject := [(7, [2])]
        queues := [("renew", [])] } ∧
    (c1find 2).subject = 7 := by
  constructor
  · rfl
  · rfl

/-- Claim C2 (code bug): recording exception "ExcA" and then the
different exception "ExcB" returns a count of 2 instead of resetting to
1, and the stored exception is still "ExcA". The condition
`repr(self.last_exception) is repr(exc)` compares the identities of two
fresh strings, so after the first call the function always takes the
increment branch, whether the exception repeats or changes. -/
theorem C2_set_last_exception_counts_different_exceptions :
    (set_last_exception (set_last_exception ⟨none, 0⟩ "ExcA").1 "ExcB").2 = 2 ∧
    (set_last_exception (set_last_exception ⟨none, 0⟩ "ExcA").1 "ExcB").1.last_exception
      = some "ExcA" := by
  constructor
  · rfl
  · rfl

/-- Claim C3 counterexample: at the 7th consecutive occurrence the
`CertFileAccessError` branch gives up while the `OCSPBadResponse`
branch reschedules the task for 43200 seconds later, so the two policies
are not the same. -/
theorem C3_policies_differ_at_seventh_occurrence :
    certFileAccessPolicy 7 = HandlerAction.giveUp ∧
    ocspBadResponsePolicy 7 = HandlerAction.reschedule 43200 ∧
    ocspBadResponsePolicy 7 ≠ certFileAccessPolicy 7 := by
  refine ⟨rfl, rfl, ?_⟩
  decide

/-- Claim C3 as amended: for occurrences 1..6 `OCSPBadResponse` follows
exactly the `CertFileAccessError` cadence (n minutes for n = 1..3, one
hour for 4..6); from the 7th occurrence on, `CertFileAccessError` gives
up while `OCSPBadResponse` keeps rescheduling every 43200 seconds. -/
theorem C3_cadence_amended (n : Nat) (h : 1 ≤ n) :
    (n ≤ 6 → ocspBadResponsePolicy n = certFileAccessPolicy n) ∧
    (7 ≤ n → certFileAccessPolicy n = HandlerAction.giveUp ∧
      ocspBadResponsePolicy n = HandlerAction.reschedule 43200) := by
  constructor
  · intro h6
    interval_cases n <;> rfl
  · intro h7
    have h4 : ¬ n < 4 := by omega
    have h7n : ¬ n < 7 := by omega
    unfold certFileAccessPolicy ocspBadResponsePolicy
    simp [h4, h7n]

/-- Claim C3 amended, witnessed at the 7th occurrence. -/
theorem C3_cadence_amended_witness :
    1 ≤ 7 ∧
    ((7 ≤ 6 → ocspBadResponsePolicy 7 = certFileAccessPolicy 7) ∧
      (7 ≤ 7 → certFileAccessPolicy 7 = HandlerAction.giveUp ∧
        ocspBadResponsePolicy 7 = HandlerAction.reschedule 43200)) :=
  ⟨by decide, C3_cadence_amended 7 (by decide)⟩

/-- Claim C4 (code bug): on an existing, readable, non-empty staple file
whose bytes fail OCSP parsing, `recycle_staple` raises instead of
silently returning `False` — the parse step sits outside the
`try  except` that guards the read, so the exception escapes to the
generic handler, which drops the parse task without scheduling a renew. -/
theorem C4_recycle_staple_parse_failure_escapes :
    recycle_staple c4env 1000 7200 = Except.error "asn1crypto parse exception" := by
  rfl

/-- Claim C5 counterexample: the fetch call built by the stapled
`renew_ocsp_staple` for a concrete end-entity and chain asks for a nonce
(`nonce=True`), and its issuer argument is `chain[-2]` — so not every
request has the nonce extension disabled. -/
theorem C5_stapled_fetch_requests_nonce :
    (stapled_renew_fetch_call 0 [5, 6, 7]).nonce = true ∧
    (stapled_renew_fetch_call 0 [5, 6, 7]).issuer = 6 := by
  constructor
  · rfl
  · rfl

/-- Claim C5 as amended: the older ocspd `ocsp_request` builder disables
the nonce, but the stapled renewer's `certvalidator.ocsp_client.fetch`
call enables it, for every end-entity and chain. -/
theorem C5_nonce_amended (end_entity : Nat) (chain : List Nat) :
    (stapled_renew_fetch_call end_entity chain).nonce = true ∧
    ocspd_request_nonce = false :=
  ⟨rfl, rfl⟩

/-- Claim C6 counterexample: `add_task` with a falsy `sched_time` puts
the context straight on its stage queue without consulting the deadline
tables, so a context already pending at time 10 ends up both in the
`renew` queue and in all four deadline tables — present twice, with the
prior entry not removed. -/
theorem C6_asap_readd_leaves_context_twice :
    lookupA c6state.scheduled_by_context c6ctx.id = some 10 ∧
    add_task c6ctx none c6state = Except.ok
      { scheduled_by_context := [(1, 10)]
        schedule := [(10, [1])]
        scheduled_by_queue := [("renew", [1])]
        scheduled_by_subject := [(7, [1])]
        queues := [("renew", [1])] } := by
  constructor
  · rfl
  · rfl

/-- Characterisation of "the context is pending exactly once, at time
`told`": the consistency the scheduler's own tables maintain between
`scheduled_by_context`, the `schedule` multimap, `scheduled_by_queue`
and `scheduled_by_subject`, plus registration of the context's stage
queue. -/
def scheduledOnce (st : SchedState) (ctx : SchedCtx) (told : Int) : Prop :=
  lookupA st.scheduled_by_context ctx.id = some told ∧
  countKey st.scheduled_by_context ctx.id = 1 ∧
  0 < countIn ((lookupA st.schedule told).getD []) ctx.id ∧
  countTbl st.schedule ctx.id = 1 ∧
  0 < countIn ((lookupA st.scheduled_by_queue ctx.task_name).getD []) ctx.id ∧
  countTbl st.scheduled_by_queue ctx.id = 1 ∧
  0 < countIn ((lookupA st.scheduled_by_subject ctx.subject).getD []) ctx.id ∧
  countTbl st.scheduled_by_subject ctx.id = 1 ∧
  (lookupA st.queues ctx.task_name).isSome = true

instance scheduledOnceDecidable (st : SchedState) (ctx : SchedCtx) (told : Int) :
    Decidable (scheduledOnce st ctx told) := by
  unfold scheduledOnce
  infer_instance

/-- Claim C6 as amended: when `add_task` is called with a NON-null
scheduled time for a context already pending on the deadline heap, the
prior entry is removed from all four tables before the new entry is
inserted — afterwards the context appears exactly once in each table,
under the new time, and the stage queues are untouched. (With a null
scheduled time the context is enqueued directly and a prior deadline
entry remains, per the counterexample.) -/
theorem C6_add_task_scheduled_time_wins (st : SchedState) (ctx : SchedCtx)
    (told t : Int) (h : scheduledOnce st ctx told) :
    ∃ st2, add_task ctx (some t) st = Except.ok st2 ∧
      lookupA st2.scheduled_by_context ctx.id = some t ∧
      countKey st2.scheduled_by_context ctx.id = 1 ∧
      countTbl st2.schedule ctx.id = 1 ∧
      countTbl st2.scheduled_by_queue ctx.id = 1 ∧
      countTbl st2.scheduled_by_subject ctx.id = 1 ∧
      st2.queues = st.queues := by
  obtain ⟨h1, h2, h3, h4, h5, h6, h7, h8, h9⟩ := h
  cases hsl : lookupA st.schedule told with
  | none =>
    rw [hsl] at h3
    simp [countIn] at h3
  | some slotv =>
  cases hq : lookupA st.scheduled_by_queue ctx.task_name with
  | none =>
    rw [hq] at h5
    simp [countIn] at h5
  | some qv =>
  cases hsub : lookupA st.scheduled_by_subject ctx.subject with
  | none =>
    rw [hsub] at h7
    simp [countIn] at h7
  | some subv =>
  rw [hsl] at h3
  rw [hq] at h5
  rw [hsub] at h7
  simp only [Option.getD_some] at h3 h5 h7
  have hni : (lookupA st.queues ctx.task_name).isNone = false := by
    cases hx : lookupA st.queues ctx.task_name with
    | none => rw [hx] at h9; simp at h9
    | some q => rfl
  have hsome : (lookupA st.scheduled_by_context ctx.id).isSome = true := by
    rw [h1]
    rfl
  have hcancel : cancel_task ctx st = ({ st with
      scheduled_by_context := popA st.scheduled_by_context ctx.id
      schedule := updateA st.schedule told (fun s => removeFirst s ctx.id)
      scheduled_by_queue :=
        updateA st.scheduled_by_queue ctx.task_name (fun s => removeFirst s ctx.id)
      scheduled_by_subject :=
        updateA st.scheduled_by_subject ctx.subject (fun s => removeFirst s ctx.id) },
      true) := by
    unfold cancel_task
    rw [h1]
  -- counts in the state after the cancellation
  have hbc0 : countKey (popA st.scheduled_by_context ctx.id) ctx.id = 0 := by
    rw [countKey_popA, h2]
  have hbcnone : lookupA (popA st.scheduled_by_context ctx.id) ctx.id = none :=
    lookupA_eq_none_of_countKey_zero _ _ hbc0
  have hslotle : countIn slotv ctx.id ≤ countTbl st.schedule ctx.id :=
    countIn_le_countTbl _ _ _ _ hsl
  have hsched0 :
      countTbl (updateA st.schedule told (fun s => removeFirst s ctx.id)) ctx.id = 0 := by
    have hu := countTbl_updateA st.schedule told (fun s => removeFirst s ctx.id)
      ctx.id slotv hsl
    simp only [] at hu
    have hr := countIn_removeFirst slotv ctx.id
    omega
  have hqle : countIn qv ctx.id ≤ countTbl st.scheduled_by_queue ctx.id :=
    countIn_le_countTbl _ _ _ _ hq
  have hq0 :
      countTbl (updateA st.scheduled_by_queue ctx.task_name
        (fun s => removeFirst s ctx.id)) ctx.id = 0 := by
    have hu := countTbl_updateA st.scheduled_by_queue ctx.task_name
      (fun s => removeFirst s ctx.id) ctx.id qv hq
    simp only [] at hu
    have hr := countIn_removeFirst qv ctx.id
    omega
  have hsuble : countIn subv ctx.id ≤ countTbl st.scheduled_by_subject ctx.id :=
    countIn_le_countTbl _ _ _ _ hsub
  have hsub0 :
      countTbl (updateA st.scheduled_by_subject ctx.subject
        (fun s => removeFirst s ctx.id)) ctx.id = 0 := by
    have hu := countTbl_updateA st.scheduled_by_subject ctx.subject
      (fun s => removeFirst s ctx.id) ctx.id subv hsub
    simp only [] at hu
    have hr := countIn_removeFirst subv ctx.id
    omega
  -- the insertion step on top of the cancelled state
  have hadd : add_task ctx (some t) st = Except.ok
      { scheduled_by_context :=
          setA (popA st.scheduled_by_context ctx.id) ctx.id t
        schedule :=
          appendAt (updateA st.schedule told (fun s => removeFirst s ctx.id)) t ctx.id
        scheduled_by_queue :=
          updateA (updateA st.scheduled_by_queue ctx.task_name
            (fun s => removeFirst s ctx.id)) ctx.task_name (fun q => q ++ [ctx.id])
        scheduled_by_subject :=
          appendAt (updateA st.scheduled_by_subject ctx.subject
            (fun s => removeFirst s ctx.id)) ctx.subject ctx.id
        queues := st.queues } := by
    simp [add_task, hni, hsome, hcancel]
  refine ⟨_, hadd, ?_, ?_, ?_, ?_, ?_, rfl⟩
  · -- the new deadline entry is the only one and holds the new time
    unfold setA
    rw [hbcnone]
    simp only [Option.isSome_none, Bool.false_eq_true, if_false]
    rw [lookupA_append_of_none _ _ _ hbcnone]
    simp [lookupA]
  · unfold setA
    rw [hbcnone]
    simp only [Option.isSome_none, Bool.false_eq_true, if_false]
    rw [countKey_append, hbc0]
    simp [countKey]
  · rw [countTbl_appendAt, hsched0]
  · have hlq : lookupA (updateA st.scheduled_by_queue ctx.task_name
        (fun s => removeFirst s ctx.id)) ctx.task_name = some (removeFirst qv ctx.id) := by
      rw [lookupA_updateA_self, hq]
      rfl
    rw [countTbl_update_append _ _ _ _ hlq, hq0]
  · rw [countTbl_appendAt, hsub0]

/-- Claim C6 amended, witnessed on a state where the context is pending
at time 10 and is re-added for time 42. -/
theorem C6_add_task_scheduled_time_wins_witness :
    scheduledOnce c6state c6ctx 10 ∧
    (∃ st2, add_task c6ctx (some 42) c6state = Except.ok st2 ∧
      lookupA st2.scheduled_by_context c6ctx.id = some 42 ∧
      countKey st2.scheduled_by_context c6ctx.id = 1 ∧
      countTbl st2.schedule c6ctx.id = 1 ∧
      countTbl st2.scheduled_by_queue c6ctx.id = 1 ∧
      countTbl st2.scheduled_by_subject c6ctx.id = 1 ∧
      st2.queues = c6state.queues) :=
  ⟨by decide, C6_add_task_scheduled_time_wins c6state c6ctx 10 42 (by decide)⟩

/-- Claim C7: on a retriable network error the handler advances
`url_index` by exactly one modulo the number of OCSP URLs, the index
stays inside `[0, number of URLs)`, and with a single URL the index is 0
after any number of failures. -/
theorem C7_url_index_round_robin (n i : Nat) (h1 : 0 < n) (h2 : i < n) :
    advance_url_index n i = (i + 1) % n ∧
    advance_url_index n i < n ∧
    (∀ k, Nat.iterate (advance_url_index 1) k 0 = 0) := by
  have key : advance_url_index n i = (i + 1) % n := by
    unfold advance_url_index
    by_cases hc : n ≤ i + 1
    · have hn : i + 1 = n := by omega
      simp [hc, hn, Nat.mod_self]
    · have hlt : i + 1 < n := by omega
      simp [hc, Nat.mod_eq_of_lt hlt]
  refine ⟨key, ?_, ?_⟩
  · rw [key]
    exact Nat.mod_lt _ h1
  · intro k
    induction k with
    | zero => rfl
    | succ k ih => exact ih

/-- Claim C7, witnessed at two URLs and index 1 (wrapping to 0). -/
theorem C7_url_index_round_robin_witness :
    0 < 2 ∧ 1 < 2 ∧
    (advance_url_index 2 1 = (1 + 1) % 2 ∧
      advance_url_index 2 1 < 2 ∧
      (∀ k, Nat.iterate (advance_url_index 1) k 0 = 0)) :=
  ⟨by decide, by decide, C7_url_index_round_robin 2 1 (by decide) (by decide)⟩

/-- Claim C8 counterexample: a collected response with the success
marker surrounded by prompt junk on BOTH sides is accepted by the code
(Python `str.strip` trims both ends), yet its trailing-only strip does
not equal `OCSP Response updated!` — so "success iff the response with
trailing characters stripped equals the marker" does not hold. -/
theorem C8_leading_junk_accepted :
    add_staple_check c8raw = Except.ok () ∧
    pyRStrip c8raw ≠ OCSP_RESPONSE_UPDATED := by
  constructor
  · rfl
  · decide

/-- Modelled from the spec's amended wording: remove newline, greater
than and space characters from the front of a character list. -/
def trimFrontSpec : List Char → List Char
  | [] => []
  | c :: cs => if c = '\n' ∨ c = '>' ∨ c = ' ' then trimFrontSpec cs else c :: cs

/-- Modelled from the spec's amended wording: the response trimmed of
newline, greater-than and space characters at both ends. -/
def stripBothEndsSpec (s : String) : String :=
  ⟨(trimFrontSpec ((trimFrontSpec s.data).reverse)).reverse⟩

theorem trimFrontSpec_eq_dropWhile (l : List Char) :
    trimFrontSpec l = l.dropWhile (· ∈ stripChars) := by
  induction l with
  | nil => rfl
  | cons c cs ih =>
    by_cases hc : c = '\n' ∨ c = '>' ∨ c = ' '
    · have hm : c ∈ stripChars := by
        simp [stripChars]
        tauto
      simp [trimFrontSpec, List.dropWhile, hc, hm, ih]
    · have hm : c ∉ stripChars := by
        simp [stripChars]
        tauto
      simp [trimFrontSpec, List.dropWhile, hc, hm]

/-- Claim C8 as amended: a proxy-add delivery succeeds if and only if
the collected response, stripped of newlines, greater-than signs and
spaces at BOTH ends, equals exactly `OCSP Response updated!`; otherwise
a `StapleAdderBadResponse` is raised. -/
theorem C8_success_iff_stripped_both_ends (raw : String) :
    add_staple_check raw = Except.ok () ↔
      stripBothEndsSpec raw = OCSP_RESPONSE_UPDATED := by
  have hs : pyStrip raw = stripBothEndsSpec raw := by
    unfold pyStrip stripBothEndsSpec
    rw [trimFrontSpec_eq_dropWhile, trimFrontSpec_eq_dropWhile]
  unfold add_staple_check send_response
  rw [hs]
  by_cases hc : stripBothEndsSpec raw = OCSP_RESPONSE_UPDATED
  · simp [hc]
  · simp [hc]

/-- Claim C9 counterexample: for the concrete staple command the bytes
put on the socket end in two newlines (`send` appends one before calling
`_send`, which appends another), not in the single newline the claim
states. -/
theorem C9_wire_bytes_have_double_newline :
    send_per_socket_write "set ssl ocsp-response QUJD" =
      "set ssl ocsp-response QUJD\n\n" ∧
    send_per_socket_write "set ssl ocsp-response QUJD" ≠
      "set ssl ocsp-response QUJD\n" := by
  constructor
  · rfl
  · decide

/-- Claim C9 as amended: for every command delivered for a proxy-add
task, the bytes written to the socket are exactly the command followed
by two newline characters. -/
theorem C9_wire_bytes_amended (command : String) :
    send_per_socket_write command = command ++ "\n\n" := by
  apply String.ext
  unfold send_per_socket_write sendall_bytes
  cases command with
  | mk data =>
    show (data ++ ['\n']) ++ ['\n'] = data ++ ['\n', '\n']
    simp

/-- Claim C10: when the socket mapping maps the record's `cert_path` to
an empty list of socket paths, `add_staple` returns normally, writes to
no socket, and leaves the adder's socket table untouched. -/
theorem C10_empty_socket_list_is_silent_success
    (mapping : List (String × List String)) (responses : String → String)
    (socks : List (String × Nat)) (m : AddModel)
    (h : lookupA mapping m.cert_path = some []) :
    add_staple mapping responses socks m = (Except.ok (), [], socks) := by
  simp [add_staple, h]

/-- Claim C10, witnessed on a mapping with one empty entry. -/
theorem C10_empty_socket_list_is_silent_success_witness :
    lookupA c10mapping c10model.cert_path = some [] ∧
    add_staple c10mapping (fun _ => "") [("/run/sock", 0)] c10model =
      (Except.ok (), [], [("/run/sock", 0)]) :=
  ⟨by decide,
    C10_empty_socket_list_is_silent_success c10mapping (fun _ => "")
      [("/run/sock", 0)] c10model (by decide)⟩

end Stapled
